import Mathlib

/-!
Verification of the marks-grader core against its specification.

The development shallowly embeds the two algorithmic subsystems of the
repository:

* `grading_service.py` — the response normalizer: `_repair_json`,
  `_parse_grading_response`, `_combine_feedback`, `_fallback_text_parsing`
  and `_create_error_result`;
* `analytics_service.py` — the analytics engine: `_create_dataframe`-derived
  per-question columns, `analyze_question_attempts`,
  `get_most_attempted_question`, `get_most_skipped_question`,
  `get_average_questions_attempted`, `get_grade_distribution`,
  `get_consistent_performers`, `get_inconsistent_performers`,
  `get_above_average_percentage` and `get_max_questions`.

Modelling conventions:

* Python numbers are modelled as rationals (`ℚ`); the source only performs
  exact-result arithmetic (`min`, `/`, `*`) in the places the claims touch.
* Python exceptions are modelled with `Option`: a function that can raise
  returns `none` on the raising paths, and the caller's `except` handler is
  the explicit `Option` dispatch.
* `json.loads` (Python standard library, no repository source) is modelled
  by `loads`, a strict recursive-descent parser of the JSON grammar
  restricted to the subset without string escape sequences and without
  exponent notation in numbers; inputs using those features are rejected by
  the model.  All concrete inputs used below stay inside the subset.
* Python `np.std` returns the square root of the population variance.
  `Real.sqrt` is noncomputable, so the embedded records store the population
  variance (field `variance`) and the theorems phrase every standard
  deviation fact through `Real.sqrt` of that field.
-/

/-- A JSON value, as produced by Python's `json.loads`: objects keep their
key/value pairs in textual order (lookups take the last binding, as a Python
dict built by `json.loads` would). -/
inductive Json where
  | null
  | bool (b : Bool)
  | num (q : ℚ)
  | str (s : String)
  | arr (elems : List Json)
  | obj (fields : List (String × Json))

/-- JSON insignificant whitespace skipping (space, tab, newline, carriage
return), used by the strict parser. -/
def skipWs : List Char → List Char
  | [] => []
  | c :: cs => if c = ' ' ∨ c = '\t' ∨ c = '\n' ∨ c = '\r' then skipWs cs else c :: cs

/-- Body of a JSON string after the opening quote.  Escape sequences are
outside the modelled subset (`\\` fails the parse), and unescaped control
characters are rejected as in strict `json.loads`. -/
def parseStringBody : List Char → Option (String × List Char)
  | [] => none
  | c :: cs =>
    if c = '"' then some ("", cs)
    else if c = '\\' ∨ c.toNat < 32 then none
    else match parseStringBody cs with
      | some (s, rest) => some (⟨c :: s.data⟩, rest)
      | none => none

/-- Numeric value of a list of decimal digit characters. -/
def digitsVal (ds : List Char) : Nat :=
  ds.foldl (fun a c => a * 10 + (c.toNat - 48)) 0

/-- JSON number parsing: optional minus sign, integer part without leading
zeros, optional fraction.  Exponents are outside the modelled subset. -/
def parseNumber (cs : List Char) : Option (ℚ × List Char) :=
  match (if cs.head? = some '-' then (true, cs.drop 1) else (false, cs)) with
  | (negs, cs1) =>
    let ds := cs1.takeWhile Char.isDigit
    let rest := cs1.drop ds.length
    if ds.isEmpty then none
    else if ds.length > 1 ∧ ds.head? = some '0' then none
    else
      match (match rest with
             | '.' :: r =>
               let f := r.takeWhile Char.isDigit
               if f.isEmpty then none else some (f, r.drop f.length)
             | _ => none) with
      | some (fds, rest2) =>
        let base : ℚ := (digitsVal ds : ℚ) + (digitsVal fds : ℚ) / ((10 : ℚ) ^ fds.length)
        some ((if negs then -base else base), rest2)
      | none =>
        let base : ℚ := (digitsVal ds : ℚ)
        some ((if negs then -base else base), rest)

/-- Member list of a JSON object after the opening brace (nonempty case).
`pv` parses one value; the fuel bounds the number of members. -/
def parseMembers (pv : List Char → Option (Json × List Char)) :
    Nat → List Char → List (String × Json) → Option (List (String × Json) × List Char)
  | 0, _, _ => none
  | Nat.succ fuel, cs, acc =>
    match cs with
    | '"' :: rest =>
      match parseStringBody rest with
      | some (k, rest1) =>
        match skipWs rest1 with
        | ':' :: rest2 =>
          match pv (skipWs rest2) with
          | some (v, rest3) =>
            match skipWs rest3 with
            | ',' :: rest4 => parseMembers pv fuel (skipWs rest4) (acc ++ [(k, v)])
            | c :: rest4 => if c = '\x7d' then some (acc ++ [(k, v)], rest4) else none
            | [] => none
          | none => none
        | _ => none
      | none => none
    | _ => none

/-- Element list of a JSON array after the opening bracket (nonempty case). -/
def parseElems (pv : List Char → Option (Json × List Char)) :
    Nat → List Char → List Json → Option (List Json × List Char)
  | 0, _, _ => none
  | Nat.succ fuel, cs, acc =>
    match pv cs with
    | some (v, rest) =>
      match skipWs rest with
      | ',' :: rest2 => parseElems pv fuel (skipWs rest2) (acc ++ [v])
      | ']' :: rest2 => some (acc ++ [v], rest2)
      | _ => none
    | none => none

/-- One JSON value at the head of the input (whitespace already skipped).
The fuel bounds the nesting depth. -/
def parseValue : Nat → List Char → Option (Json × List Char)
  | 0, _ => none
  | Nat.succ fuel, cs =>
    match cs with
    | [] => none
    | 't' :: 'r' :: 'u' :: 'e' :: rest => some (Json.bool true, rest)
    | 'f' :: 'a' :: 'l' :: 's' :: 'e' :: rest => some (Json.bool false, rest)
    | 'n' :: 'u' :: 'l' :: 'l' :: rest => some (Json.null, rest)
    | '"' :: rest =>
      match parseStringBody rest with
      | some (s, rest1) => some (Json.str s, rest1)
      | none => none
    | '[' :: rest =>
      match skipWs rest with
      | ']' :: rest1 => some (Json.arr [], rest1)
      | cs1 => match parseElems (parseValue fuel) (cs1.length + 1) cs1 [] with
        | some (vs, rest1) => some (Json.arr vs, rest1)
        | none => none
    | c :: rest =>
      if c = '\x7b' then
        match skipWs rest with
        | d :: rest1 =>
          if d = '\x7d' then some (Json.obj [], rest1)
          else match parseMembers (parseValue fuel) (rest1.length + 2) (d :: rest1) [] with
            | some (fs, rest2) => some (Json.obj fs, rest2)
            | none => none
        | [] => none
      else
        match parseNumber cs with
        | some (q, rest1) => some (Json.num q, rest1)
        | none => none

/-- Model of Python `json.loads` on the subset described in the header:
parse one value surrounded by optional whitespace and require the whole
input to be consumed (`json.loads` raises `JSONDecodeError`, i.e. `none`,
otherwise). -/
def loads (s : String) : Option Json :=
  match parseValue (s.length + 1) (skipWs s.data) with
  | some (v, rest) => if (skipWs rest).isEmpty then some v else none
  | none => none

/-- Python dict lookup for a dict built from a JSON object member list:
later duplicate keys overwrite earlier ones. -/
def dictGet (fields : List (String × Json)) (k : String) : Option Json :=
  fields.foldl (fun acc p => if p.fst = k then some p.snd else acc) none

/-- Python whitespace for `str.strip` (ASCII subset). -/
def pyIsSpace (c : Char) : Bool :=
  c = ' ' ∨ c = '\t' ∨ c = '\n' ∨ c = '\r' ∨ c = '\x0b' ∨ c = '\x0c'

/-- Model of Python `str.strip()` (ASCII whitespace subset). -/
def pyStrip (s : String) : String :=
  ⟨((s.data.dropWhile pyIsSpace).reverse.dropWhile pyIsSpace).reverse⟩

/-- Python truthiness of a JSON-shaped value (`if grading_data.get(...)`). -/
def truthy : Json → Bool
  | Json.null => false
  | Json.bool b => b
  | Json.num q => decide (q ≠ 0)
  | Json.str s => decide (s ≠ "")
  | Json.arr elems => !elems.isEmpty
  | Json.obj fields => !fields.isEmpty

/-- String payload of a JSON value when it is a string. -/
def asStr : Json → Option String
  | Json.str s => some s
  | _ => none

/-- All-strings view of a JSON array's elements (the modelled subset of the
f-string interpolation `f"• {strength}"`, which the source only receives
string lists for; a non-string element is treated as the raising path). -/
def strItems : List Json → Option (List String)
  | [] => some []
  | Json.str s :: rest => (strItems rest).map (fun ss => s :: ss)
  | _ => none

/-- One optional feedback section: absent or falsy source fields are
skipped (`some none`), truthy fields are rendered by `mk`, and a truthy
field `mk` cannot render is the raising path (`none`), caught by the
caller's generic `except` handler. -/
def feedbackPart (v : Option Json) (mk : Json → Option String) : Option (Option String) :=
  match v with
  | none => some none
  | some j => if truthy j then (mk j).map some else some none

/-- Bullet list rendering: `label + "\n".join("• " + item)`. -/
def bulletSection (label : String) (items : List String) : String :=
  label ++ String.intercalate "\n" (items.map (fun s => "• " ++ s))

/-- Model of `GradingService._combine_feedback`: overall feedback, a
strengths bullet list, an improvement-areas bullet list and the grade
justification, each included only when its source field is truthy, joined
by blank lines.  `none` is the raising path. -/
def combineFeedback (fields : List (String × Json)) : Option String := do
  let p1 ← feedbackPart (dictGet fields "overall_feedback") asStr
  let p2 ← feedbackPart (dictGet fields "strengths") (fun j =>
    match j with
    | Json.arr elems => (strItems elems).map (bulletSection "**Strengths:**\n")
    | _ => none)
  let p3 ← feedbackPart (dictGet fields "areas_for_improvement") (fun j =>
    match j with
    | Json.arr elems => (strItems elems).map (bulletSection "**Areas for Improvement:**\n")
    | _ => none)
  let p4 ← feedbackPart (dictGet fields "grade_justification") (fun j =>
    (asStr j).map (fun s => "**Grade Justification:**\n" ++ s))
  some (String.intercalate "\n\n" ([p1, p2, p3, p4].filterMap id))

/-- The normalized grading record built by `_parse_grading_response` (and by
the fallback and error paths).  `percentage` stays a raw JSON value because
the source passes the reported payload value through unchanged unless it
recomputes it.  The error and fallback dicts lack the
`criteria_explanations` key; that absence is modelled as `Json.null`. -/
structure GradingResult where
  total_score : ℚ
  percentage : Json
  feedback : String
  criteria_scores : Json
  criteria_explanations : Json
  questions : Json
  strengths : Json
  areas_for_improvement : Json
  grade_justification : Json

/-- Model of `GradingService._create_error_result`. -/
def createErrorResult (error_message : String) : GradingResult :=
  { total_score := 0
    percentage := Json.num 0
    feedback := "Error during grading: " ++ error_message
    criteria_scores := Json.obj []
    criteria_explanations := Json.null
    questions := Json.arr []
    strengths := Json.arr []
    areas_for_improvement := Json.arr []
    grade_justification := Json.str "Grading failed due to technical error." }

/-- Numeric read of a dict entry with a default (`grading_data.get(k, d)`
flowing into `min`): an absent key gives the default, a number gives its
value, a Python bool is an int (`True = 1`), and any other type makes the
subsequent `min` raise `TypeError` — the `none` path. -/
def getNumD (fields : List (String × Json)) (k : String) (d : ℚ) : Option ℚ :=
  match dictGet fields k with
  | none => some d
  | some (Json.num q) => some q
  | some (Json.bool b) => some (if b then 1 else 0)
  | some _ => none

/-- Model of the validation/normalization tail of
`_parse_grading_response` (source lines 239-255) applied to a successfully
parsed object: `total_score = min(reported, total_marks)`, percentage
recomputed from the clamped score only when it is positive, narrative
fields merged by `combineFeedback`.  `none` is the raising path (caught by
the generic `except` handler). -/
def normalizeParsed (fields : List (String × Json)) (total_marks : ℚ) :
    Option GradingResult := do
  let reported ← getNumD fields "total_score" 0
  let fb ← combineFeedback fields
  let score := min reported total_marks
  some { total_score := score
         percentage := if 0 < score then Json.num (score / total_marks * 100)
                       else (dictGet fields "percentage").getD (Json.num 0)
         feedback := fb
         criteria_scores := (dictGet fields "criteria_scores").getD (Json.obj [])
         criteria_explanations := (dictGet fields "criteria_explanations").getD (Json.obj [])
         questions := (dictGet fields "questions").getD (Json.arr [])
         strengths := (dictGet fields "strengths").getD (Json.arr [])
         areas_for_improvement := (dictGet fields "areas_for_improvement").getD (Json.arr [])
         grade_justification := (dictGet fields "grade_justification").getD (Json.str "") }

/-- Stack scan of `_repair_json`: push every opener, pop on a closer only
when it matches the innermost opener, ignore unmatched closers.  The head
of the stack list is the innermost open symbol. -/
def braceScan : List Char → List Char → List Char
  | [], stack => stack
  | c :: cs, stack =>
    if c = '\x7b' ∨ c = '[' then braceScan cs (c :: stack)
    else if c = '\x7d' ∨ c = ']' then
      match stack with
      | [] => braceScan cs []
      | top :: rest =>
        if (c = '\x7d' ∧ top = '\x7b') ∨ (c = ']' ∧ top = '[') then braceScan cs rest
        else braceScan cs (top :: rest)
    else braceScan cs stack

/-- Closing symbol for an opener. -/
def closeFor (c : Char) : Char := if c = '\x7b' then '\x7d' else ']'

/-- Model of `GradingService._repair_json`: strip, append one quote when the
quote count is odd, then append the closer of every still-open symbol in
last-opened-first-closed order. -/
def repairJson (json_str : String) : String :=
  let t := (pyStrip json_str).data
  let t2 := if (t.filter (fun d => d = '"')).length % 2 ≠ 0 then t ++ ['"'] else t
  ⟨t2 ++ (braceScan t2 []).map closeFor⟩

/-- Index of the last occurrence of a character (Python `str.rfind`, with
`none` for -1). -/
def lastIdxOf (cs : List Char) (c : Char) : Option Nat :=
  match cs.reverse.findIdx? (fun d => d = c) with
  | some j => some (cs.length - 1 - j)
  | none => none

/-- Candidate JSON region of `_parse_grading_response`: from the first
opening brace to the last closing brace when one follows it, otherwise
everything from the first opening brace. -/
def sliceContent (raw : List Char) (json_start : Nat) : List Char :=
  match lastIdxOf raw '\x7d' with
  | some json_end =>
    if json_start < json_end then (raw.drop json_start).take (json_end + 1 - json_start)
    else raw.drop json_start
  | none => raw.drop json_start

/-- Message of the `AttributeError` raised when the parsed JSON value is not
an object (`grading_data.get` on a non-dict); the exact Python text is not
load-bearing for any claim. -/
def attrErrorMessage : String := "object has no attribute get"

/-- Message of the `TypeError` raised inside normalization when a payload
field has an unusable type; the exact Python text is not load-bearing for
any claim. -/
def typeErrorMessage : String := "unsupported operand type"

/-- Model of Python `str.lower` on ASCII letters. -/
def pyLower (c : Char) : Char :=
  if 'A' ≤ c ∧ c ≤ 'Z' then Char.ofNat (c.toNat + 32) else c

/-- Characters matched by the `[:\s]` class of the fallback regex (ASCII
whitespace subset of `\s`). -/
def isColonOrSpace (c : Char) : Bool := c = ':' ∨ pyIsSpace c

/-- Case-insensitive match of `marks?` at the head of the input (the second
alternative of the fallback regex), returning the remainder. -/
def markRest (cs : List Char) : Option (List Char) :=
  match cs with
  | c1 :: c2 :: c3 :: c4 :: rest =>
    if pyLower c1 = 'm' ∧ pyLower c2 = 'a' ∧ pyLower c3 = 'r' ∧ pyLower c4 = 'k' then
      some (match rest with
            | c5 :: rest2 => if pyLower c5 = 's' then rest2 else c5 :: rest2
            | [] => [])
    else none
  | _ => none

/-- Case-insensitive match of `(?:score|marks?)` at the head of the input,
returning the remainder. -/
def keywordRest (cs : List Char) : Option (List Char) :=
  match cs with
  | c1 :: c2 :: c3 :: c4 :: c5 :: rest =>
    if pyLower c1 = 's' ∧ pyLower c2 = 'c' ∧ pyLower c3 = 'o' ∧ pyLower c4 = 'r' ∧
       pyLower c5 = 'e' then some rest
    else markRest (c1 :: c2 :: c3 :: c4 :: c5 :: rest)
  | _ => markRest cs

/-- Match of the full fallback pattern
`(?:score|marks?)[:\s]*(\d+)(?:/(\d+))?` anchored at the head of the input:
keyword, any run of colons/whitespace, a digit group, and an optional
`/digits` denominator group. -/
def tryMatchAt (cs : List Char) : Option (Nat × Option Nat) := do
  let rest ← keywordRest cs
  let rest1 := rest.dropWhile isColonOrSpace
  let ds := rest1.takeWhile Char.isDigit
  if ds.isEmpty then none
  else
    match rest1.drop ds.length with
    | '/' :: rest2 =>
      let ds2 := rest2.takeWhile Char.isDigit
      if ds2.isEmpty then some (digitsVal ds, none)
      else some (digitsVal ds, some (digitsVal ds2))
    | _ => some (digitsVal ds, none)

/-- Model of `re.search` with the fallback pattern: leftmost match wins. -/
def findScoreMatch : List Char → Option (Nat × Option Nat)
  | [] => none
  | c :: cs =>
    match tryMatchAt (c :: cs) with
    | some r => some r
    | none => findScoreMatch cs

/-- The record built by the non-raising exit of `_fallback_text_parsing`. -/
def mkFallbackResult (score : ℚ) (response : String) (total_marks : ℚ) : GradingResult :=
  { total_score := score
    percentage := if 0 < total_marks then Json.num (score / total_marks * 100) else Json.num 0
    feedback := response
    criteria_scores := Json.obj []
    criteria_explanations := Json.null
    questions := Json.arr []
    strengths := Json.arr []
    areas_for_improvement := Json.arr []
    grade_justification := Json.str "Grading performed using fallback text analysis." }

/-- Body of the `try` block of `_fallback_text_parsing`: extract the score
via the regex, rescale when the detected denominator differs from
`total_marks`, clamp with `min`.  `none` is the `ZeroDivisionError` path
(denominator 0 with rescaling required). -/
def fallbackInner (response : String) (total_marks : ℚ) : Option GradingResult :=
  match findScoreMatch response.data with
  | some (n, denom) =>
    let max_score : ℚ := match denom with | some d => (d : ℚ) | none => total_marks
    if max_score = total_marks then
      some (mkFallbackResult (min (n : ℚ) total_marks) response total_marks)
    else if max_score = 0 then none
    else some (mkFallbackResult (min ((n : ℚ) / max_score * total_marks) total_marks)
                response total_marks)
  | none => some (mkFallbackResult 0 response total_marks)

/-- Model of `GradingService._fallback_text_parsing`: the `try` body with
its blanket `except` handler returning the fixed error record. -/
def fallbackTextParsing (response : String) (total_marks : ℚ) : GradingResult :=
  (fallbackInner response total_marks).getD
    (createErrorResult "Failed to parse grading response")

/-- Dispatch on the parsed JSON value: an object is normalized (a raising
normalization falls to the generic handler), a non-object raises
`AttributeError` at `grading_data.get` and also falls to the generic
handler. -/
def finishParsed (v : Json) (total_marks : ℚ) : GradingResult :=
  match v with
  | Json.obj fields =>
    match normalizeParsed fields total_marks with
    | some r => r
    | none => createErrorResult typeErrorMessage
  | _ => createErrorResult attrErrorMessage

/-- Model of `GradingService._parse_grading_response`: strip, slice the
candidate JSON region, strict parse, repair and re-parse on failure, fall
back to text scanning when both parses fail, and map every other raised
error to the fixed error record. -/
def parseGradingResponse (response : String) (total_marks : ℚ) : GradingResult :=
  let raw := pyStrip response
  match raw.data.findIdx? (fun c => c = '\x7b') with
  | none => createErrorResult ("Gemini did not return JSON:\n" ++ raw)
  | some json_start =>
    let content : String := ⟨sliceContent raw.data json_start⟩
    match loads content with
    | some v => finishParsed v total_marks
    | none =>
      match loads (repairJson content) with
      | some v => finishParsed v total_marks
      | none => fallbackTextParsing response total_marks

/-- The JSON FORMAT block of `_create_grading_prompt` (source lines
99-118), as rendered by the f-string (doubled braces become single
braces).  The requested question schema has exactly the keys
question_number, question_text, score, max_score and feedback. -/
def gradingPromptJsonFormat : String :=
  "\x7b\n    \"total_score\": <numerical score out of total marks>,\n    \"percentage\": <percentage score>,\n    \"overall_feedback\": \"<comprehensive feedback explaining the grade>\",\n    \"strengths\": [\"<list of strengths identified>\"],\n    \"areas_for_improvement\": [\"<list of areas needing improvement>\"],\n    \"criteria_scores\": \x7b\n        \"<criterion_name>\": <score for this criterion>\n    \x7d,\n    \"questions\": [\n        \x7b\n            \"question_number\": <number>,\n            \"question_text\": \"<brief description of the question>\",\n            \"score\": <score for this question>,\n            \"max_score\": <maximum possible score>,\n            \"feedback\": \"<specific feedback for this question>\"\n        \x7d\n    ],\n    \"grade_justification\": \"<detailed explanation of how the grade was determined>\"\n\x7d"

/-- Substring test (needle occurs somewhere in the haystack). -/
def subOcc (needle : List Char) : List Char → Bool
  | [] => needle.isEmpty
  | c :: cs => needle.isPrefixOf (c :: cs) || subOcc needle cs

/-- String-level substring test. -/
def hasSubstr (hay needle : String) : Bool := subOcc needle.data hay.data

/-- Per-question payload extracted by `_create_dataframe`: the question
dicts of a grading result, with each key optional (a dict without the key
takes the `get` default). -/
structure StudentQuestion where
  attempted : Option Bool
  score : Option ℚ
  max_score : Option ℚ
deriving DecidableEq

/-- One grading result as loaded into the analytics dataset by
`_create_dataframe`. -/
structure StudentResult where
  filename : String
  total_marks : ℚ
  awarded_marks : ℚ
  percentage : ℚ
  questions : List StudentQuestion
deriving DecidableEq

/-- Largest question count across all loaded records; this is the number of
`question_i_attempted` columns of the dataframe, i.e. `get_max_questions`
on a nonempty dataset. -/
def maxQuestions (ds : List StudentResult) : Nat :=
  ds.foldl (fun a r => max a r.questions.length) 0

/-- Model of `get_max_questions`. -/
def getMaxQuestions (ds : List StudentResult) : Nat :=
  if ds.isEmpty then 0 else maxQuestions ds

/-- Value of the `question_n_attempted` dataframe cell of one record:
`question.get('attempted', False)` when the record has an n-th question,
and NaN — which sums as false — otherwise. -/
def rowAttempted (r : StudentResult) (n : Nat) : Bool :=
  match r.questions[n - 1]? with
  | some q => q.attempted.getD false
  | none => false

/-- Sum of the `question_n_attempted` column. -/
def attemptedCount (ds : List StudentResult) (n : Nat) : Nat :=
  ds.countP (fun r => rowAttempted r n)

/-- Result triple of `analyze_question_attempts`. -/
structure AttemptAnalysis where
  attempted_count : Nat
  total_students : Nat
  percentage : ℚ
deriving DecidableEq

/-- Model of `analyze_question_attempts`: the empty dataframe returns all
zeros, a question index without a column returns a zero count, and
otherwise the column sum with the attempt rate. -/
def analyzeQuestionAttempts (ds : List StudentResult) (n : Nat) : AttemptAnalysis :=
  if ds.isEmpty then ⟨0, 0, 0⟩
  else if 1 ≤ n ∧ n ≤ maxQuestions ds then
    ⟨attemptedCount ds n, ds.length,
     if 0 < ds.length then (attemptedCount ds n : ℚ) / (ds.length : ℚ) * 100 else 0⟩
  else ⟨0, ds.length, 0⟩

/-- Python `max(iterable, key=...)` after the first element has been taken
as the initial candidate: a later element replaces the candidate only when
its key is strictly greater, so the first maximum wins. -/
def pyMaxBy (key : α → Nat) (best : α) : List α → α
  | [] => best
  | x :: xs => pyMaxBy key (if key best < key x then x else best) xs

/-- Result triple of `get_most_attempted_question`. -/
structure MostAttempted where
  question_number : Nat
  attempts : Nat
  percentage : ℚ
deriving DecidableEq

/-- Row of the `attempts_data` list of `get_most_attempted_question`. -/
def attemptsRow (ds : List StudentResult) (i : Nat) : MostAttempted :=
  ⟨i, (analyzeQuestionAttempts ds i).attempted_count, (analyzeQuestionAttempts ds i).percentage⟩

/-- Model of `get_most_attempted_question`. -/
def getMostAttemptedQuestion (ds : List StudentResult) : MostAttempted :=
  if ds.isEmpty then ⟨0, 0, 0⟩
  else if maxQuestions ds = 0 then ⟨0, 0, 0⟩
  else
    match (List.range' 1 (maxQuestions ds)).map (attemptsRow ds) with
    | [] => ⟨0, 0, 0⟩
    | x :: xs => pyMaxBy (fun row => row.attempts) x xs

/-- Result triple of `get_most_skipped_question`. -/
structure MostSkipped where
  question_number : Nat
  skipped_count : Nat
  percentage : ℚ
deriving DecidableEq

/-- Row of the `skip_data` list of `get_most_skipped_question`. -/
def skipRow (ds : List StudentResult) (i : Nat) : MostSkipped :=
  ⟨i, (analyzeQuestionAttempts ds i).total_students - (analyzeQuestionAttempts ds i).attempted_count,
   if 0 < (analyzeQuestionAttempts ds i).total_students then
     (((analyzeQuestionAttempts ds i).total_students -
        (analyzeQuestionAttempts ds i).attempted_count : Nat) : ℚ) /
       ((analyzeQuestionAttempts ds i).total_students : ℚ) * 100
   else 0⟩

/-- Model of `get_most_skipped_question`. -/
def getMostSkippedQuestion (ds : List StudentResult) : MostSkipped :=
  if ds.isEmpty then ⟨0, 0, 0⟩
  else if maxQuestions ds = 0 then ⟨0, 0, 0⟩
  else
    match (List.range' 1 (maxQuestions ds)).map (skipRow ds) with
    | [] => ⟨0, 0, 0⟩
    | x :: xs => pyMaxBy (fun row => row.skipped_count) x xs

/-- Model of `get_average_questions_attempted`. -/
def getAverageQuestionsAttempted (ds : List StudentResult) : ℚ :=
  if ds.isEmpty then 0
  else if maxQuestions ds = 0 then 0
  else if 0 < ds.length then
    ((((List.range' 1 (maxQuestions ds)).map (fun i => attemptedCount ds i)).sum : Nat) : ℚ) /
      (ds.length : ℚ)
  else 0

/-- Mean with divisor N (`np.mean` on a nonempty list, exact in ℚ). -/
def popMean (ps : List ℚ) : ℚ := ps.sum / (ps.length : ℚ)

/-- Population variance with divisor N; `np.std` is its square root. -/
def popVar (ps : List ℚ) : ℚ :=
  ((ps.map (fun p => (p - popMean ps) ^ 2)).sum) / (ps.length : ℚ)

/-- Stable insertion of one element into a sorted list: the inserted
element goes before the first element it compares `le` to, so earlier list
elements stay ahead of later equal-key ones. -/
def insertLe (le : α → α → Bool) (x : α) : List α → List α
  | [] => [x]
  | y :: ys => if le x y then x :: y :: ys else y :: insertLe le x ys

/-- Stable insertion sort, the semantics of Python `sorted`. -/
def insSort (le : α → α → Bool) : List α → List α
  | [] => []
  | x :: xs => insertLe le x (insSort le xs)

/-- Model of `np.median`: middle element of the sorted values, or the mean
of the two middle elements for an even count. -/
def npMedian (ps : List ℚ) : ℚ :=
  let s := insSort (fun a b => decide (a ≤ b)) ps
  if ps.isEmpty then 0
  else if ps.length % 2 = 1 then s.getD (ps.length / 2) 0
  else (s.getD (ps.length / 2 - 1) 0 + s.getD (ps.length / 2) 0) / 2

/-- Number of percentages inside one inclusive grade range. -/
def bucketCount (ps : List ℚ) (lo hi : ℚ) : Nat :=
  ps.countP (fun p => decide (lo ≤ p ∧ p ≤ hi))

/-- Result of `get_grade_distribution`.  The source stores
`np.std(percentages)` under the `std_dev` key; `Real.sqrt` is not
computable, so the record stores the population variance and the theorems
speak of `Real.sqrt variance`. -/
structure GradeDistribution where
  grades : List (String × Nat)
  average : ℚ
  median : ℚ
  variance : ℚ
deriving DecidableEq

/-- Model of `get_grade_distribution` with its five inclusive ranges in the
source's dict insertion order. -/
def getGradeDistribution (ds : List StudentResult) : GradeDistribution :=
  if ds.isEmpty then ⟨[], 0, 0, 0⟩
  else
    let ps := ds.map (fun r => r.percentage)
    ⟨[("A (90-100%)", bucketCount ps 90 100),
      ("B (80-89%)", bucketCount ps 80 89),
      ("C (70-79%)", bucketCount ps 70 79),
      ("D (60-69%)", bucketCount ps 60 69),
      ("F (0-59%)", bucketCount ps 0 59)],
     popMean ps, npMedian ps, popVar ps⟩

/-- The `question_i_percentage` dataframe cell:
`score / max_score * 100` with the source's `get` defaults when the stored
max score is positive, else 0. -/
def questionPct (q : StudentQuestion) : ℚ :=
  if 0 < q.max_score.getD 0 then q.score.getD 0 / q.max_score.getD 1 * 100 else 0

/-- Question percentages of one record as collected by the per-row loops of
the consistency analyses: the columns run over 1..max_questions and the
record's missing trailing columns are NaN, which `pd.notna` filters out. -/
def questionPercentages (ds : List StudentResult) (r : StudentResult) : List ℚ :=
  (List.range' 1 (maxQuestions ds)).filterMap (fun i => (r.questions[i - 1]?).map questionPct)

/-- Entry of the `get_consistent_performers` output.  The source stores
`np.std` under `std_deviation`; the entry stores the population variance
instead (`std_deviation = Real.sqrt variance`). -/
structure PerformerEntry where
  filename : String
  average_score : ℚ
  variance : ℚ
  question_scores : List ℚ
deriving DecidableEq

/-- Per-record test of `get_consistent_performers`: at least two question
percentages, population standard deviation below 15 (equivalently variance
below 225) and mean above 50. -/
def considerConsistent (ds : List StudentResult) (r : StudentResult) : Option PerformerEntry :=
  let qp := questionPercentages ds r
  if 2 ≤ qp.length then
    if popVar qp < 225 ∧ 50 < popMean qp then
      some ⟨r.filename, popMean qp, popVar qp, qp⟩
    else none
  else none

/-- Model of `get_consistent_performers`, sorted ascending by standard
deviation (equivalently by variance). -/
def getConsistentPerformers (ds : List StudentResult) : List PerformerEntry :=
  if ds.isEmpty then []
  else if maxQuestions ds < 2 then []
  else insSort (fun a b => decide (a.variance ≤ b.variance)) (ds.filterMap (considerConsistent ds))

/-- Python `min` over a nonempty list. -/
def pyMin : List ℚ → ℚ
  | [] => 0
  | x :: xs => xs.foldl min x

/-- Python `max` over a nonempty list. -/
def pyMax : List ℚ → ℚ
  | [] => 0
  | x :: xs => xs.foldl max x

/-- Entry of the `get_inconsistent_performers` output (again with the
variance in place of `np.std`). -/
structure InconsistentEntry where
  filename : String
  variance : ℚ
  score_range : ℚ
  min_score : ℚ
  max_score : ℚ
  question_scores : List ℚ
deriving DecidableEq

/-- Per-record test of `get_inconsistent_performers`: standard deviation
above 25 (variance above 625) or score range above 40. -/
def considerInconsistent (ds : List StudentResult) (r : StudentResult) : Option InconsistentEntry :=
  let qp := questionPercentages ds r
  if 2 ≤ qp.length then
    if 625 < popVar qp ∨ 40 < pyMax qp - pyMin qp then
      some ⟨r.filename, popVar qp, pyMax qp - pyMin qp, pyMin qp, pyMax qp, qp⟩
    else none
  else none

/-- Model of `get_inconsistent_performers`, sorted descending by standard
deviation. -/
def getInconsistentPerformers (ds : List StudentResult) : List InconsistentEntry :=
  if ds.isEmpty then []
  else if maxQuestions ds < 2 then []
  else insSort (fun a b => decide (b.variance ≤ a.variance))
    (ds.filterMap (considerInconsistent ds))

/-- Result of `get_above_average_percentage`. -/
structure AboveAverage where
  percentage : ℚ
  count : Nat
  total : Nat
  class_average : ℚ
deriving DecidableEq

/-- Model of `get_above_average_percentage`. -/
def getAboveAveragePercentage (ds : List StudentResult) : AboveAverage :=
  if ds.isEmpty then ⟨0, 0, 0, 0⟩
  else
    let ps := ds.map (fun r => r.percentage)
    ⟨if 0 < ds.length then
       ((ps.countP (fun p => decide (popMean ps < p)) : Nat) : ℚ) / (ds.length : ℚ) * 100
     else 0,
     ps.countP (fun p => decide (popMean ps < p)), ds.length, popMean ps⟩

/-- The truncated payload of the repair example: one enclosing object
missing only its final closing brace. -/
def truncPayload : String := "\x7b\"total_score\": 5, \"percentage\": 50"

/-- A structured payload reporting a negative total score. -/
def negPayload : String := "\x7b\"total_score\": -5\x7d"

/-- The rational 89.5, built without normalizing arithmetic so that bucket
comparisons evaluate by `decide`. -/
def qHalf : ℚ := ⟨179, 2, by decide, by decide⟩

/-- A one-record dataset whose percentage 89.5 lies between the B and A
grade ranges. -/
def dsGap : List StudentResult := [⟨"gap.pdf", 200, 179, qHalf, []⟩]

/-- The three-record dataset of the grade-distribution example, with
percentages 90, 70 and 50. -/
def dsDistribution : List StudentResult :=
  [⟨"p90.pdf", 100, 90, 90, []⟩, ⟨"p70.pdf", 100, 70, 70, []⟩, ⟨"p50.pdf", 100, 50, 50, []⟩]

/-- A question worth 100 with a given score and no attempted key. -/
def mkQuestion (score : ℚ) : StudentQuestion := ⟨none, some score, some 100⟩

/-- The record of the consistency example: question percentages 60, 62
and 58. -/
def recConsistent : StudentResult :=
  ⟨"steady.pdf", 300, 180, 60, [mkQuestion 60, mkQuestion 62, mkQuestion 58]⟩

/-- The one-record dataset of the consistency example. -/
def dsConsistent : List StudentResult := [recConsistent]

/-- The consistent-performers entry produced for `recConsistent`. -/
def entryConsistent : PerformerEntry := ⟨"steady.pdf", 60, 8 / 3, [60, 62, 58]⟩

/-- Payload fields reporting a score of 150 (for the upper-clamp witness). -/
def fieldsOver : List (String × Json) := [("total_score", Json.num 150)]

/-- Payload fields reporting score 3 of 10 with a reported percentage 7
(for the percentage-recompute witness). -/
def fieldsPct : List (String × Json) :=
  [("total_score", Json.num 3), ("percentage", Json.num 7)]

/-- Payload fields reporting score 0 with a reported percentage 55 (for the
percentage-passthrough witness). -/
def fieldsZero : List (String × Json) :=
  [("total_score", Json.num 0), ("percentage", Json.num 55)]

/-- The record normalized from `fieldsOver` with total marks 100. -/
def resultOver : GradingResult := (normalizeParsed fieldsOver 100).getD (createErrorResult "")

/-- The record normalized from `fieldsPct` with total marks 10. -/
def resultPct : GradingResult := (normalizeParsed fieldsPct 10).getD (createErrorResult "")

/-- The record normalized from `fieldsZero` with total marks 10. -/
def resultZero : GradingResult := (normalizeParsed fieldsZero 10).getD (createErrorResult "")

/-- A record whose two question dicts both lack the attempted key. -/
def recNoAttemptKey : StudentResult :=
  ⟨"schema.pdf", 20, 15, 75, [⟨none, some 10, some 10⟩, ⟨none, some 5, some 10⟩]⟩

/-- A two-record two-question dataset where both questions are attempted by
exactly one student each (for the tie-break witness: the scan must return
question 1). -/
def dsTie : List StudentResult :=
  [⟨"a.pdf", 10, 5, 50, [⟨some true, some 5, some 5⟩, ⟨some false, some 0, some 5⟩]⟩,
   ⟨"b.pdf", 10, 5, 50, [⟨some false, some 0, some 5⟩, ⟨some true, some 5, some 5⟩]⟩]

/-- Number of the five grade ranges of `get_grade_distribution` that
contain a given percentage. -/
def bucketHits (p : ℚ) : Nat :=
  (if 90 ≤ p ∧ p ≤ 100 then 1 else 0) + (if 80 ≤ p ∧ p ≤ 89 then 1 else 0) +
    (if 70 ≤ p ∧ p ≤ 79 then 1 else 0) + (if 60 ≤ p ∧ p ≤ 69 then 1 else 0) +
    (if 0 ≤ p ∧ p ≤ 59 then 1 else 0)

/-- The four open intervals between adjacent grade ranges, which no grade
range contains. -/
def inGap (p : ℚ) : Prop :=
  (59 < p ∧ p < 60) ∨ (69 < p ∧ p < 70) ∨ (79 < p ∧ p < 80) ∨ (89 < p ∧ p < 90)

instance (p : ℚ) : Decidable (inGap p) := by unfold inGap; infer_instance

theorem insertLe_perm (le : α → α → Bool) (x : α) (l : List α) :
    (insertLe le x l).Perm (x :: l) := by
  induction l with
  | nil => exact List.Perm.refl _
  | cons y ys ih =>
    cases hxy : le x y with
    | true => simp [insertLe, hxy]
    | false =>
      have h2 : insertLe le x (y :: ys) = y :: insertLe le x ys := by simp [insertLe, hxy]
      rw [h2]
      exact (List.Perm.cons y ih).trans (List.Perm.swap x y ys)

theorem insSort_perm (le : α → α → Bool) (l : List α) : (insSort le l).Perm l := by
  induction l with
  | nil => exact List.Perm.refl _
  | cons x xs ih => exact (insertLe_perm le x (insSort le xs)).trans (List.Perm.cons x ih)

theorem mem_insertLe (le : α → α → Bool) (x a : α) (l : List α) :
    a ∈ insertLe le x l ↔ a = x ∨ a ∈ l := by
  rw [(insertLe_perm le x l).mem_iff, List.mem_cons]

theorem insertLe_pairwise (le : α → α → Bool)
    (htot : ∀ a b, le a b = true ∨ le b a = true)
    (htrans : ∀ a b c, le a b = true → le b c = true → le a c = true)
    (x : α) (l : List α) (h : l.Pairwise (fun a b => le a b = true)) :
    (insertLe le x l).Pairwise (fun a b => le a b = true) := by
  induction l with
  | nil => simp [insertLe]
  | cons y ys ih =>
    obtain ⟨hy, hys⟩ := List.pairwise_cons.mp h
    cases hxy : le x y with
    | true =>
      have h2 : insertLe le x (y :: ys) = x :: y :: ys := by simp [insertLe, hxy]
      rw [h2]
      refine List.pairwise_cons.mpr ⟨?_, h⟩
      intro b hb
      rcases List.mem_cons.mp hb with rfl | hb
      · exact hxy
      · exact htrans x y b hxy (hy b hb)
    | false =>
      have h2 : insertLe le x (y :: ys) = y :: insertLe le x ys := by simp [insertLe, hxy]
      rw [h2]
      refine List.pairwise_cons.mpr ⟨?_, ih hys⟩
      intro b hb
      rcases (mem_insertLe le x b ys).mp hb with rfl | hb
      · exact (htot b y).resolve_left (by simp [hxy])
      · exact hy b hb

theorem insSort_pairwise (le : α → α → Bool)
    (htot : ∀ a b, le a b = true ∨ le b a = true)
    (htrans : ∀ a b c, le a b = true → le b c = true → le a c = true)
    (l : List α) : (insSort le l).Pairwise (fun a b => le a b = true) := by
  induction l with
  | nil => simp [insSort]
  | cons x xs ih => exact insertLe_pairwise le htot htrans x _ ih

theorem pyMaxBy_spec (key qkey : α → Nat) :
    ∀ (l : List α) (best : α),
      (best :: l).Pairwise (fun a b => qkey a < qkey b) →
      ((pyMaxBy key best l = best ∨
          (pyMaxBy key best l ∈ l ∧ key best < key (pyMaxBy key best l))) ∧
        (∀ x ∈ best :: l, key x ≤ key (pyMaxBy key best l)) ∧
        (∀ x ∈ best :: l, key x = key (pyMaxBy key best l) →
          qkey (pyMaxBy key best l) ≤ qkey x)) := by
  intro l
  induction l with
  | nil =>
    intro best _
    refine ⟨Or.inl rfl, ?_, ?_⟩
    · intro x hx
      rcases List.mem_cons.mp hx with rfl | hx
      · exact le_refl _
      · exact absurd hx (List.not_mem_nil x)
    · intro x hx _
      rcases List.mem_cons.mp hx with rfl | hx
      · exact le_refl _
      · exact absurd hx (List.not_mem_nil x)
  | cons z zs ih =>
    intro best hpw
    obtain ⟨hb, hrest⟩ := List.pairwise_cons.mp hpw
    by_cases hcmp : key best < key z
    · have e : pyMaxBy key best (z :: zs) = pyMaxBy key z zs := by simp [pyMaxBy, hcmp]
      obtain ⟨hA, hB, hC⟩ := ih z hrest
      rw [e]
      refine ⟨?_, ?_, ?_⟩
      · rcases hA with heq | ⟨hmem, hlt⟩
        · exact Or.inr ⟨by rw [heq]; exact List.mem_cons_self _ _, by rw [heq]; exact hcmp⟩
        · exact Or.inr ⟨List.mem_cons_of_mem z hmem, lt_trans hcmp hlt⟩
      · intro x hx
        rcases List.mem_cons.mp hx with rfl | hx
        · exact le_trans (le_of_lt hcmp) (hB z (List.mem_cons_self _ _))
        · exact hB x hx
      · intro x hx hkey
        rcases List.mem_cons.mp hx with rfl | hx
        · exact absurd (lt_of_lt_of_le hcmp (hB z (List.mem_cons_self _ _)))
            (by rw [hkey]; exact lt_irrefl _)
        · exact hC x hx hkey
    · have e : pyMaxBy key best (z :: zs) = pyMaxBy key best zs := by simp [pyMaxBy, hcmp]
      have hpw2 : (best :: zs).Pairwise (fun a b => qkey a < qkey b) := by
        refine List.pairwise_cons.mpr ⟨?_, (List.pairwise_cons.mp hrest).2⟩
        intro w hw
        exact hb w (List.mem_cons_of_mem z hw)
      obtain ⟨hA, hB, hC⟩ := ih best hpw2
      rw [e]
      refine ⟨?_, ?_, ?_⟩
      · rcases hA with heq | ⟨hmem, hlt⟩
        · exact Or.inl heq
        · exact Or.inr ⟨List.mem_cons_of_mem z hmem, hlt⟩
      · intro x hx
        rcases List.mem_cons.mp hx with rfl | hx
        · exact hB x (List.mem_cons_self _ _)
        rcases List.mem_cons.mp hx with rfl | hx
        · exact le_trans (not_lt.mp hcmp) (hB best (List.mem_cons_self _ _))
        · exact hB x (List.mem_cons_of_mem best hx)
      · intro x hx hkey
        rcases List.mem_cons.mp hx with rfl | hx
        · exact hC x (List.mem_cons_self _ _) hkey
        rcases List.mem_cons.mp hx with rfl | hx
        · rcases hA with heq | ⟨_, hlt⟩
          · rw [heq]
            exact le_of_lt (hb x (List.mem_cons_self _ _))
          · exact absurd (lt_of_lt_of_le hlt (le_of_eq hkey.symm))
              (not_lt.mpr (not_lt.mp hcmp))
        · exact hC x (List.mem_cons_of_mem best hx) hkey

theorem pyMaxBy_over_range (key qkey : α → Nat) (f : Nat → α)
    (hq : ∀ i, qkey (f i) = i) (n : Nat) (hn : 1 ≤ n)
    (x : α) (xs : List α) (hxs : (List.range' 1 n).map f = x :: xs) :
    ∃ j, 1 ≤ j ∧ j ≤ n ∧ pyMaxBy key x xs = f j ∧
      (∀ i, 1 ≤ i → i ≤ n → key (f i) ≤ key (f j)) ∧
      (∀ i, 1 ≤ i → i ≤ n → key (f i) = key (f j) → j ≤ i) := by
  obtain ⟨m, rfl⟩ : ∃ m, n = m + 1 := ⟨n - 1, (Nat.succ_pred_eq_of_pos hn).symm⟩
  have hr : List.range' 1 (m + 1) = 1 :: List.range' 2 m := by
    simpa using List.range'_succ 1 m 1
  have hmap : (List.range' 1 (m + 1)).map f = f 1 :: (List.range' 2 m).map f := by
    rw [hr, List.map_cons]
  obtain ⟨hx1, hxs1⟩ : f 1 = x ∧ (List.range' 2 m).map f = xs := by
    have := hmap.symm.trans hxs
    exact ⟨(List.cons.injEq _ _ _ _).mp this |>.1, (List.cons.injEq _ _ _ _).mp this |>.2⟩
  subst hx1
  subst hxs1
  have hpw : (f 1 :: (List.range' 2 m).map f).Pairwise (fun a b => qkey a < qkey b) := by
    rw [← List.map_cons, ← hr, List.pairwise_map]
    refine (List.pairwise_lt_range' 1 (m + 1)).imp ?_
    intro a b hab
    rw [hq, hq]
    exact hab
  obtain ⟨hA, hB, hC⟩ := pyMaxBy_spec key qkey ((List.range' 2 m).map f) (f 1) hpw
  have hmem : pyMaxBy key (f 1) ((List.range' 2 m).map f) ∈ (List.range' 1 (m + 1)).map f := by
    rw [hmap]
    rcases hA with heq | ⟨hmem, _⟩
    · rw [heq]; exact List.mem_cons_self _ _
    · exact List.mem_cons_of_mem _ hmem
  obtain ⟨j, hjmem, hjeq⟩ := List.mem_map.mp hmem
  obtain ⟨hj1, hj2⟩ := List.mem_range'_1.mp hjmem
  refine ⟨j, hj1, by omega, hjeq.symm, ?_, ?_⟩
  · intro i hi1 hi2
    rw [hjeq]
    exact hB (f i) (by rw [← hmap]; exact List.mem_map_of_mem f (List.mem_range'_1.mpr ⟨hi1, by omega⟩))
  · intro i hi1 hi2 hkey
    have := hC (f i)
      (by rw [← hmap]; exact List.mem_map_of_mem f (List.mem_range'_1.mpr ⟨hi1, by omega⟩))
      (by rw [hkey, hjeq])
    rw [← hjeq, hq, hq] at this
    exact this

theorem fallbackInner_none (response : String) (tm : ℚ)
    (h : findScoreMatch response.data = none) :
    fallbackInner response tm = some (mkFallbackResult 0 response tm) := by
  unfold fallbackInner
  rw [h]

theorem fallbackInner_noDenom (response : String) (tm : ℚ) (n : Nat)
    (h : findScoreMatch response.data = some (n, none)) :
    fallbackInner response tm = some (mkFallbackResult (min (n : ℚ) tm) response tm) := by
  unfold fallbackInner
  rw [h]
  simp

theorem fallbackInner_denom (response : String) (tm : ℚ) (n dv : Nat)
    (h : findScoreMatch response.data = some (n, some dv)) :
    fallbackInner response tm =
      (if (dv : ℚ) = tm then some (mkFallbackResult (min (n : ℚ) tm) response tm)
       else if (dv : ℚ) = 0 then none
       else some (mkFallbackResult (min ((n : ℚ) / (dv : ℚ) * tm) tm) response tm)) := by
  unfold fallbackInner
  rw [h]

/-- C5: every Analytics Engine query (`attempts(n)`, most attempted, most
skipped, average questions attempted, grade distribution, consistent and
inconsistent performers, above average, max questions) invoked on the empty
dataset returns its zero/empty default record; as total Lean functions
they cannot raise. -/
theorem empty_dataset_defaults :
    (∀ n : Nat, analyzeQuestionAttempts [] n = ⟨0, 0, 0⟩) ∧
    getMostAttemptedQuestion [] = ⟨0, 0, 0⟩ ∧
    getMostSkippedQuestion [] = ⟨0, 0, 0⟩ ∧
    getAverageQuestionsAttempted [] = 0 ∧
    getGradeDistribution [] = ⟨[], 0, 0, 0⟩ ∧
    getConsistentPerformers [] = [] ∧
    getInconsistentPerformers [] = [] ∧
    getAboveAveragePercentage [] = ⟨0, 0, 0, 0⟩ ∧
    getMaxQuestions [] = 0 :=
  ⟨fun _ => rfl, rfl, rfl, rfl, rfl, rfl, rfl, rfl, rfl⟩

/-- C1 (counterexample): the claimed clamping into [0, total_marks] fails
at a payload reporting total_score = -5 with total_marks = 10 — the
normalized score is -5, strictly below 0. -/
theorem negative_score_passes_through :
    (parseGradingResponse negPayload 10).total_score = -5 ∧
    ¬ (0 ≤ (parseGradingResponse negPayload 10).total_score) := by
  exact ⟨by decide, by decide⟩

/-- C1 (amended): the structured path computes
`total_score = min(reported, total_marks)` — a reported score above
total_marks is silently clamped down to total_marks and the result never
exceeds total_marks, but any reported score at most total_marks (negative
ones included) passes through unchanged, so the result lies in
[0, total_marks] only when the reported score is nonnegative.  The
fallback path's score does always lie in [0, total_marks] for nonnegative
total_marks, because the extracted number is a nonnegative digit group. -/
theorem clamp_only_from_above :
    (∀ (fields : List (String × Json)) (tm r_ts : ℚ) (r : GradingResult),
        normalizeParsed fields tm = some r →
        getNumD fields "total_score" 0 = some r_ts →
        r.total_score = min r_ts tm ∧ r.total_score ≤ tm ∧
        (r_ts ≤ tm → r.total_score = r_ts) ∧
        (0 ≤ r_ts → 0 ≤ tm → 0 ≤ r.total_score ∧ r.total_score ≤ tm)) ∧
    (∀ (response : String) (tm : ℚ), 0 ≤ tm →
        0 ≤ (fallbackTextParsing response tm).total_score ∧
        (fallbackTextParsing response tm).total_score ≤ tm) := by
  constructor
  · intro fields tm r_ts r hn hts
    unfold normalizeParsed at hn
    rw [hts] at hn
    cases hcf : combineFeedback fields with
    | none => rw [hcf] at hn; simp at hn
    | some fb =>
      rw [hcf] at hn
      simp only [Option.bind_eq_bind, Option.some_bind, Option.some.injEq] at hn
      subst hn
      refine ⟨rfl, min_le_right _ _, fun h => min_eq_left h, fun h0 htm => ?_⟩
      exact ⟨le_min h0 htm, min_le_right _ _⟩
  · intro response tm htm
    unfold fallbackTextParsing
    cases hm : findScoreMatch response.data with
    | none =>
      rw [fallbackInner_none response tm hm]
      exact ⟨le_refl 0, htm⟩
    | some nd =>
      obtain ⟨n, denom⟩ := nd
      cases denom with
      | none =>
        rw [fallbackInner_noDenom response tm n hm]
        exact ⟨le_min (Nat.cast_nonneg n) htm, min_le_right _ _⟩
      | some dv =>
        rw [fallbackInner_denom response tm n dv hm]
        by_cases hd : (dv : ℚ) = tm
        · rw [if_pos hd]
          exact ⟨le_min (Nat.cast_nonneg n) htm, min_le_right _ _⟩
        · rw [if_neg hd]
          by_cases h0 : (dv : ℚ) = 0
          · rw [if_pos h0]
            exact ⟨le_refl 0, htm⟩
          · rw [if_neg h0]
            refine ⟨le_min ?_ htm, min_le_right _ _⟩
            exact mul_nonneg (div_nonneg (Nat.cast_nonneg n) (Nat.cast_nonneg dv)) htm

/-- C2: on the example payload that encodes one object and lacks only its
final closing brace, the repair appends exactly the one missing closer (the
quote count is even, one brace is still open), the repaired text parses
strictly while the original does not, and the normalizer returns a record
with total_score = 5 whenever total_marks ≥ 5. -/
theorem repair_recovers_truncated_payload (tm : ℚ) (h5 : 5 ≤ tm) :
    repairJson truncPayload = "\x7b\"total_score\": 5, \"percentage\": 50\x7d" ∧
    (loads truncPayload).isNone = true ∧
    (loads (repairJson truncPayload)).isSome = true ∧
    (parseGradingResponse truncPayload tm).total_score = 5 := by
  refine ⟨by decide, by decide, by decide, ?_⟩
  have e : (parseGradingResponse truncPayload tm).total_score = min ((5 : ℕ) : ℚ) tm := rfl
  rw [e, show ((5 : ℕ) : ℚ) = 5 by norm_num]
  exact min_eq_left h5

/-- C9: in a record normalized from a parsed structure, the percentage is
recomputed as clamped_score / total_marks × 100 exactly when the clamped
awarded score is positive; when it is zero or negative the source-reported
percentage value (default 0) is kept. -/
theorem percentage_recompute_rule :
    ∀ (fields : List (String × Json)) (tm : ℚ) (r : GradingResult),
      normalizeParsed fields tm = some r →
      (0 < r.total_score → r.percentage = Json.num (r.total_score / tm * 100)) ∧
      (r.total_score ≤ 0 → r.percentage = (dictGet fields "percentage").getD (Json.num 0)) := by
  intro fields tm r hn
  unfold normalizeParsed at hn
  cases hts : getNumD fields "total_score" 0 with
  | none => rw [hts] at hn; simp at hn
  | some ts =>
    rw [hts] at hn
    cases hcf : combineFeedback fields with
    | none => rw [hcf] at hn; simp at hn
    | some fb =>
      rw [hcf] at hn
      simp only [Option.bind_eq_bind, Option.some_bind, Option.some.injEq] at hn
      subst hn
      constructor
      · intro hpos
        have hpos' : (0 : ℚ) < min ts tm := hpos
        show (if 0 < min ts tm then Json.num (min ts tm / tm * 100)
              else (dictGet fields "percentage").getD (Json.num 0)) = _
        rw [if_pos hpos']
      · intro hneg
        have hneg' : min ts tm ≤ (0 : ℚ) := hneg
        show (if 0 < min ts tm then Json.num (min ts tm / tm * 100)
              else (dictGet fields "percentage").getD (Json.num 0)) = _
        rw [if_neg (not_lt.mpr hneg')]

/-- C6: when structured parsing and repair both fail, the text fallback
scans for the score pattern; a match whose positive denominator differs
from total_marks is rescaled to the total_marks scale and clamped into
[0, total_marks], and when no pattern matches the result is the score-0
failure record whose feedback preserves the raw input text verbatim. -/
theorem fallback_rescale_and_raw_feedback :
    (∀ (response : String) (tm : ℚ) (n dv : Nat),
        findScoreMatch response.data = some (n, some dv) →
        (dv : ℚ) ≠ tm → 0 < dv → 0 ≤ tm →
        (fallbackTextParsing response tm).total_score = min ((n : ℚ) / (dv : ℚ) * tm) tm ∧
        0 ≤ (fallbackTextParsing response tm).total_score ∧
        (fallbackTextParsing response tm).total_score ≤ tm ∧
        (fallbackTextParsing response tm).feedback = response) ∧
    (∀ (response : String) (tm : ℚ),
        findScoreMatch response.data = none →
        (fallbackTextParsing response tm).total_score = 0 ∧
        (fallbackTextParsing response tm).feedback = response) := by
  constructor
  · intro response tm n dv h hne hdv htm
    have h0 : (dv : ℚ) ≠ 0 := by
      have : (0 : ℚ) < (dv : ℚ) := by exact_mod_cast hdv
      exact this.ne'
    unfold fallbackTextParsing
    rw [fallbackInner_denom response tm n dv h, if_neg hne, if_neg h0]
    refine ⟨rfl, ?_, min_le_right _ _, rfl⟩
    exact le_min (mul_nonneg (div_nonneg (Nat.cast_nonneg n) (Nat.cast_nonneg dv)) htm) htm
  · intro response tm h
    unfold fallbackTextParsing
    rw [fallbackInner_none response tm h]
    exact ⟨rfl, rfl⟩

/-- C10: the fallback parser is total; the one raising path of its `try`
body — a matched pattern with denominator 0 while rescaling is required —
is caught by its `except` handler, which returns the fixed error record
whose score is 0 and whose feedback is the fixed error message, not the
raw input text. -/
theorem fallback_zero_denominator_caught :
    (∀ (response : String) (tm : ℚ) (n : Nat),
        findScoreMatch response.data = some (n, some 0) → tm ≠ 0 →
        fallbackInner response tm = none ∧
        fallbackTextParsing response tm = createErrorResult "Failed to parse grading response" ∧
        (fallbackTextParsing response tm).total_score = 0 ∧
        (fallbackTextParsing response tm).feedback =
          "Error during grading: Failed to parse grading response" ∧
        (response ≠ "Error during grading: Failed to parse grading response" →
          (fallbackTextParsing response tm).feedback ≠ response)) ∧
    (∀ (response : String) (tm : ℚ), fallbackInner response tm = none →
        fallbackTextParsing response tm =
          createErrorResult "Failed to parse grading response") := by
  constructor
  · intro response tm n h hne
    have hi : fallbackInner response tm = none := by
      rw [fallbackInner_denom response tm n 0 h, Nat.cast_zero,
        if_neg (fun hc => hne hc.symm), if_pos rfl]
    refine ⟨hi, ?_, ?_, ?_, ?_⟩
    · unfold fallbackTextParsing
      rw [hi]
      rfl
    · unfold fallbackTextParsing
      rw [hi]
      rfl
    · unfold fallbackTextParsing
      rw [hi]
      rfl
    · intro hneq
      unfold fallbackTextParsing
      rw [hi]
      exact fun hc => hneq hc.symm
  · intro response tm h
    unfold fallbackTextParsing
    rw [h]
    rfl

set_option maxRecDepth 8000 in
/-- C4: the JSON schema requested by the grading prompt has no
`attempted` key; a question dict without that key gets
`question_i_attempted = False` in the dataframe, so `attempts(n)` counts
exactly the records whose n-th question carries an explicit
`attempted: true` — records built from the requested schema are never
counted, whatever their scores. -/
theorem attempted_requires_explicit_flag :
    hasSubstr gradingPromptJsonFormat "attempted" = false ∧
    (∀ (r : StudentResult) (n : Nat),
        (∀ q ∈ r.questions, q.attempted = none) → rowAttempted r n = false) ∧
    (∀ (ds : List StudentResult) (n : Nat),
        attemptedCount ds n =
          ds.countP (fun r =>
            decide ((r.questions[n - 1]?).bind (fun q => q.attempted) = some true))) ∧
    (∀ (ds : List StudentResult) (n : Nat),
        (analyzeQuestionAttempts ds n).attempted_count =
          if ¬ ds.isEmpty ∧ 1 ≤ n ∧ n ≤ maxQuestions ds then attemptedCount ds n else 0) := by
  refine ⟨by decide, ?_, ?_, ?_⟩
  · intro r n hall
    unfold rowAttempted
    cases hq : r.questions[n - 1]? with
    | none => rfl
    | some q =>
      have hmem : q ∈ r.questions := by
        obtain ⟨hlt, heq⟩ := List.getElem?_eq_some.mp hq
        exact heq ▸ List.getElem_mem hlt
      simp [hall q hmem]
  · intro ds n
    unfold attemptedCount
    apply List.countP_congr
    intro r _
    cases hq : r.questions[n - 1]? with
    | none => simp [rowAttempted, hq]
    | some q =>
      cases hat : q.attempted with
      | none => simp [rowAttempted, hq, hat]
      | some b => cases b <;> simp [rowAttempted, hq, hat]
  · intro ds n
    unfold analyzeQuestionAttempts
    by_cases hds : ds.isEmpty
    · rw [if_pos hds, if_neg (fun hc => hc.1 hds)]
    · rw [if_neg hds]
      by_cases hcond : 1 ≤ n ∧ n ≤ maxQuestions ds
      · rw [if_pos hcond]
        have hr : (if ¬ds.isEmpty = true ∧ 1 ≤ n ∧ n ≤ maxQuestions ds
            then attemptedCount ds n else 0) = attemptedCount ds n := if_pos ⟨hds, hcond⟩
        rw [hr]
      · rw [if_neg hcond]
        have hr : (if ¬ds.isEmpty = true ∧ 1 ≤ n ∧ n ≤ maxQuestions ds
            then attemptedCount ds n else 0) = 0 := if_neg (fun hc => hcond hc.2)
        rw [hr]

/-- C3 (counterexample): the record percentage 89.5 lies in [0, 100] but
between the B and A ranges, so it is counted in no bucket: on the
one-record dataset every bucket count is 0 and the counts do not sum to
the record count. -/
theorem grade_buckets_gap_counterexample :
    qHalf = 179 / 2 ∧ (0 : ℚ) ≤ qHalf ∧ qHalf ≤ 100 ∧
    dsGap.length = 1 ∧
    ((getGradeDistribution dsGap).grades.map Prod.snd).sum = 0 ∧
    bucketHits qHalf = 0 := by
  refine ⟨?_, by decide, by decide, by decide, by decide, by decide⟩
  rw [qHalf, Rat.mk'_eq_divInt, Rat.divInt_eq_div]
  norm_num

/-- C3 (amended): each percentage is counted by a bucket iff it lies in
that closed range; inside [0, 100] a percentage hits exactly one bucket
unless it lies in one of the four open gaps (59,60), (69,70), (79,80),
(89,90), where it hits none — so the per-bucket counts sum to the number
of records exactly when no percentage falls in a gap (in particular for
integer percentages); the reported average is the divisor-N mean, the
reported spread is the divisor-N population variance (np.std being its
square root), the median is the np.median of the percentages; and the
[90, 70, 50] example yields counts A:1, B:0, C:1, D:0, F:1, mean 70,
median 70. -/
theorem grade_distribution_spec :
    (∀ p : ℚ, 0 ≤ p → p ≤ 100 → bucketHits p = if inGap p then 0 else 1) ∧
    (∀ ds : List StudentResult,
        ((getGradeDistribution ds).grades.map Prod.snd).sum =
          ((ds.map (fun r => r.percentage)).map bucketHits).sum) ∧
    (∀ ds : List StudentResult, ds ≠ [] →
        (getGradeDistribution ds).average * ((ds.length : ℕ) : ℚ) =
          (ds.map (fun r => r.percentage)).sum ∧
        (getGradeDistribution ds).median = npMedian (ds.map (fun r => r.percentage)) ∧
        (getGradeDistribution ds).variance * ((ds.length : ℕ) : ℚ) =
          ((ds.map (fun r => r.percentage)).map
            (fun p => (p - (getGradeDistribution ds).average) ^ 2)).sum) ∧
    ((getGradeDistribution dsDistribution).grades =
        [("A (90-100%)", 1), ("B (80-89%)", 0), ("C (70-79%)", 1), ("D (60-69%)", 0),
          ("F (0-59%)", 1)] ∧
      (getGradeDistribution dsDistribution).average = 70 ∧
      (getGradeDistribution dsDistribution).median = 70) := by
  refine ⟨?_, ?_, ?_, by decide, ?_, by decide⟩
  · intro p h0 h100
    by_cases hgap : inGap p
    · rw [if_pos hgap]
      unfold bucketHits
      rcases hgap with ⟨ha, hb⟩ | ⟨ha, hb⟩ | ⟨ha, hb⟩ | ⟨ha, hb⟩ <;>
        rw [if_neg (by rintro ⟨hx, hy⟩; linarith), if_neg (by rintro ⟨hx, hy⟩; linarith),
          if_neg (by rintro ⟨hx, hy⟩; linarith), if_neg (by rintro ⟨hx, hy⟩; linarith),
          if_neg (by rintro ⟨hx, hy⟩; linarith)]
    · rw [if_neg hgap]
      unfold inGap at hgap
      push_neg at hgap
      obtain ⟨g1, g2, g3, g4⟩ := hgap
      unfold bucketHits
      rcases le_or_lt p 59 with h59 | h59
      · rw [if_neg (by rintro ⟨hx, _⟩; linarith), if_neg (by rintro ⟨hx, _⟩; linarith),
          if_neg (by rintro ⟨hx, _⟩; linarith), if_neg (by rintro ⟨hx, _⟩; linarith),
          if_pos ⟨h0, h59⟩]
      · have h60 : 60 ≤ p := g1 h59
        rcases le_or_lt p 69 with h69 | h69
        · rw [if_neg (by rintro ⟨hx, _⟩; linarith), if_neg (by rintro ⟨hx, _⟩; linarith),
            if_neg (by rintro ⟨hx, _⟩; linarith), if_pos ⟨h60, h69⟩,
            if_neg (by rintro ⟨_, hy⟩; linarith)]
        · have h70 : 70 ≤ p := g2 h69
          rcases le_or_lt p 79 with h79 | h79
          · rw [if_neg (by rintro ⟨hx, _⟩; linarith), if_neg (by rintro ⟨hx, _⟩; linarith),
              if_pos ⟨h70, h79⟩, if_neg (by rintro ⟨_, hy⟩; linarith),
              if_neg (by rintro ⟨_, hy⟩; linarith)]
          · have h80 : 80 ≤ p := g3 h79
            rcases le_or_lt p 89 with h89 | h89
            · rw [if_neg (by rintro ⟨hx, _⟩; linarith), if_pos ⟨h80, h89⟩,
                if_neg (by rintro ⟨_, hy⟩; linarith), if_neg (by rintro ⟨_, hy⟩; linarith),
                if_neg (by rintro ⟨_, hy⟩; linarith)]
            · have h90 : 90 ≤ p := g4 h89
              rw [if_pos ⟨h90, h100⟩, if_neg (by rintro ⟨_, hy⟩; linarith),
                if_neg (by rintro ⟨_, hy⟩; linarith), if_neg (by rintro ⟨_, hy⟩; linarith),
                if_neg (by rintro ⟨_, hy⟩; linarith)]
  · intro ds
    by_cases hds : ds.isEmpty
    · have he : ds = [] := List.isEmpty_iff.mp hds
      subst he
      rfl
    · have hgr : (getGradeDistribution ds).grades =
          [("A (90-100%)", bucketCount (ds.map (fun r => r.percentage)) 90 100),
           ("B (80-89%)", bucketCount (ds.map (fun r => r.percentage)) 80 89),
           ("C (70-79%)", bucketCount (ds.map (fun r => r.percentage)) 70 79),
           ("D (60-69%)", bucketCount (ds.map (fun r => r.percentage)) 60 69),
           ("F (0-59%)", bucketCount (ds.map (fun r => r.percentage)) 0 59)] := by
        unfold getGradeDistribution
        rw [if_neg hds]
      rw [hgr]
      simp only [List.map_cons, List.map_nil, List.sum_cons, List.sum_nil]
      generalize (ds.map fun r => r.percentage) = ps
      induction ps with
      | nil => simp [bucketCount]
      | cons p ps ih =>
        simp only [bucketCount, List.countP_cons, decide_eq_true_eq, List.map_cons,
          List.sum_cons] at ih ⊢
        rw [← ih]
        unfold bucketHits
        omega
  · intro ds hne
    have hds : ¬ ds.isEmpty = true := fun hc => hne (List.isEmpty_iff.mp hc)
    have hlen0 : ds.length ≠ 0 := fun hc => hne (List.length_eq_zero.mp hc)
    have hlen : ((ds.length : ℕ) : ℚ) ≠ 0 := Nat.cast_ne_zero.mpr hlen0
    have ha : (getGradeDistribution ds).average = popMean (ds.map fun r => r.percentage) := by
      unfold getGradeDistribution
      rw [if_neg hds]
    have hv : (getGradeDistribution ds).variance = popVar (ds.map fun r => r.percentage) := by
      unfold getGradeDistribution
      rw [if_neg hds]
    have hm : (getGradeDistribution ds).median = npMedian (ds.map fun r => r.percentage) := by
      unfold getGradeDistribution
      rw [if_neg hds]
    refine ⟨?_, hm, ?_⟩
    · rw [ha]
      unfold popMean
      rw [List.length_map]
      exact div_mul_cancel₀ _ hlen
    · rw [hv, ha]
      unfold popVar popMean
      rw [List.length_map]
      exact div_mul_cancel₀ _ hlen
  · have ha : (getGradeDistribution dsDistribution).average = popMean [90, 70, 50] := by
      unfold getGradeDistribution dsDistribution
      norm_num
    rw [ha]
    unfold popMean
    norm_num

/-- C7: most_attempted and most_skipped scan question indices
1..max_questions in ascending order and return the first index achieving
the maximum attempted (resp. skipped) count: the returned index is in
range, carries the count of its own question, no index beats it, and any
index with an equal count is at least it. -/
theorem most_attempted_skipped_first_max (ds : List StudentResult)
    (hne : ds ≠ []) (hq : 1 ≤ maxQuestions ds) :
    (1 ≤ (getMostAttemptedQuestion ds).question_number ∧
      (getMostAttemptedQuestion ds).question_number ≤ maxQuestions ds ∧
      (getMostAttemptedQuestion ds).attempts =
        (analyzeQuestionAttempts ds
          (getMostAttemptedQuestion ds).question_number).attempted_count ∧
      (∀ i, 1 ≤ i → i ≤ maxQuestions ds →
        (analyzeQuestionAttempts ds i).attempted_count ≤
          (getMostAttemptedQuestion ds).attempts) ∧
      (∀ i, 1 ≤ i → i ≤ maxQuestions ds →
        (analyzeQuestionAttempts ds i).attempted_count =
          (getMostAttemptedQuestion ds).attempts →
        (getMostAttemptedQuestion ds).question_number ≤ i)) ∧
    (1 ≤ (getMostSkippedQuestion ds).question_number ∧
      (getMostSkippedQuestion ds).question_number ≤ maxQuestions ds ∧
      (getMostSkippedQuestion ds).skipped_count =
        (analyzeQuestionAttempts ds (getMostSkippedQuestion ds).question_number).total_students -
          (analyzeQuestionAttempts ds
            (getMostSkippedQuestion ds).question_number).attempted_count ∧
      (∀ i, 1 ≤ i → i ≤ maxQuestions ds →
        (analyzeQuestionAttempts ds i).total_students -
            (analyzeQuestionAttempts ds i).attempted_count ≤
          (getMostSkippedQuestion ds).skipped_count) ∧
      (∀ i, 1 ≤ i → i ≤ maxQuestions ds →
        (analyzeQuestionAttempts ds i).total_students -
            (analyzeQuestionAttempts ds i).attempted_count =
          (getMostSkippedQuestion ds).skipped_count →
        (getMostSkippedQuestion ds).question_number ≤ i)) := by
  have hds : ¬ ds.isEmpty = true := fun hc => hne (List.isEmpty_iff.mp hc)
  have hq0 : ¬ maxQuestions ds = 0 := by omega
  constructor
  · cases hxs : (List.range' 1 (maxQuestions ds)).map (attemptsRow ds) with
    | nil =>
      exfalso
      have hlen := congrArg List.length hxs
      simp at hlen
      omega
    | cons x xs =>
      obtain ⟨j, hj1, hj2, hjeq, hmax, htie⟩ :=
        pyMaxBy_over_range (fun row => row.attempts) (fun row => row.question_number)
          (attemptsRow ds) (fun _ => rfl) (maxQuestions ds) hq x xs hxs
      have hg : getMostAttemptedQuestion ds = attemptsRow ds j := by
        unfold getMostAttemptedQuestion
        rw [if_neg hds, if_neg hq0, hxs]
        exact hjeq
      rw [hg]
      exact ⟨hj1, hj2, rfl, fun i h1 h2 => hmax i h1 h2, fun i h1 h2 hk => htie i h1 h2 hk⟩
  · cases hxs : (List.range' 1 (maxQuestions ds)).map (skipRow ds) with
    | nil =>
      exfalso
      have hlen := congrArg List.length hxs
      simp at hlen
      omega
    | cons x xs =>
      obtain ⟨j, hj1, hj2, hjeq, hmax, htie⟩ :=
        pyMaxBy_over_range (fun row => row.skipped_count) (fun row => row.question_number)
          (skipRow ds) (fun _ => rfl) (maxQuestions ds) hq x xs hxs
      have hg : getMostSkippedQuestion ds = skipRow ds j := by
        unfold getMostSkippedQuestion
        rw [if_neg hds, if_neg hq0, hxs]
        exact hjeq
      rw [hg]
      exact ⟨hj1, hj2, rfl, fun i h1 h2 => hmax i h1 h2, fun i h1 h2 hk => htie i h1 h2 hk⟩

theorem sqrt_cast_lt_15 (v : ℚ) : Real.sqrt (v : ℝ) < 15 ↔ v < 225 := by
  rw [Real.sqrt_lt' (by norm_num : (0 : ℝ) < 15),
    show ((15 : ℝ) : ℝ) ^ 2 = ((225 : ℚ) : ℝ) by norm_num]
  exact Rat.cast_lt

theorem questionPercentages_length_le (ds : List StudentResult) (r : StudentResult) :
    (questionPercentages ds r).length ≤ maxQuestions ds := by
  unfold questionPercentages
  refine le_trans (List.length_filterMap_le _ _) ?_
  simp

/-- C8: consistent_performers considers exactly the records with at least
two question percentages, includes a record iff its per-record population
standard deviation (np.std, the square root of the stored variance) is
below 15 and its mean is above 50, copies the record's statistics into the
entry, and returns the entries sorted ascending by standard deviation; the
[60, 62, 58] example record is classified consistent. -/
theorem consistent_performers_spec :
    (∀ (ds : List StudentResult) (r : StudentResult),
        (considerConsistent ds r).isSome = true ↔
          (2 ≤ (questionPercentages ds r).length ∧
            Real.sqrt ((popVar (questionPercentages ds r) : ℚ) : ℝ) < 15 ∧
            50 < popMean (questionPercentages ds r))) ∧
    (∀ (ds : List StudentResult) (r : StudentResult) (e : PerformerEntry),
        considerConsistent ds r = some e →
          e.filename = r.filename ∧
          e.average_score = popMean (questionPercentages ds r) ∧
          e.variance = popVar (questionPercentages ds r) ∧
          e.question_scores = questionPercentages ds r) ∧
    (∀ ds : List StudentResult,
        (getConsistentPerformers ds).Perm (ds.filterMap (considerConsistent ds))) ∧
    (∀ ds : List StudentResult,
        (getConsistentPerformers ds).Pairwise
          (fun a b => Real.sqrt ((a.variance : ℚ) : ℝ) ≤ Real.sqrt ((b.variance : ℚ) : ℝ))) ∧
    (getConsistentPerformers dsConsistent = [entryConsistent] ∧
      entryConsistent.question_scores = [60, 62, 58] ∧
      Real.sqrt ((entryConsistent.variance : ℚ) : ℝ) < 15 ∧
      50 < entryConsistent.average_score) := by
  refine ⟨?_, ?_, ?_, ?_, ?_⟩
  · intro ds r
    simp only [considerConsistent]
    by_cases h2 : 2 ≤ (questionPercentages ds r).length
    · rw [if_pos h2]
      by_cases hc : popVar (questionPercentages ds r) < 225 ∧
          50 < popMean (questionPercentages ds r)
      · rw [if_pos hc]
        simp only [Option.isSome_some, true_iff]
        exact ⟨h2, (sqrt_cast_lt_15 _).mpr hc.1, hc.2⟩
      · rw [if_neg hc]
        constructor
        · intro h
          simp at h
        · rintro ⟨_, hs, hm⟩
          exact absurd ⟨(sqrt_cast_lt_15 _).mp hs, hm⟩ hc
    · rw [if_neg h2]
      constructor
      · intro h
        simp at h
      · rintro ⟨hl, _, _⟩
        exact absurd hl h2
  · intro ds r e hsome
    simp only [considerConsistent] at hsome
    by_cases h2 : 2 ≤ (questionPercentages ds r).length
    · rw [if_pos h2] at hsome
      by_cases hc : popVar (questionPercentages ds r) < 225 ∧
          50 < popMean (questionPercentages ds r)
      · rw [if_pos hc] at hsome
        injection hsome with hsome
        subst hsome
        exact ⟨rfl, rfl, rfl, rfl⟩
      · rw [if_neg hc] at hsome
        exact absurd hsome (by simp)
    · rw [if_neg h2] at hsome
      exact absurd hsome (by simp)
  · intro ds
    unfold getConsistentPerformers
    by_cases hds : ds.isEmpty
    · rw [if_pos hds]
      have he : ds = [] := List.isEmpty_iff.mp hds
      subst he
      exact List.Perm.nil
    · rw [if_neg hds]
      by_cases hm2 : maxQuestions ds < 2
      · rw [if_pos hm2]
        have hnil : ds.filterMap (considerConsistent ds) = [] := by
          rw [List.filterMap_eq_nil_iff]
          intro r hr
          simp only [considerConsistent]
          have hlen := questionPercentages_length_le ds r
          rw [if_neg (by omega)]
        rw [hnil]
      · rw [if_neg hm2]
        exact insSort_perm _ _
  · intro ds
    unfold getConsistentPerformers
    by_cases hds : ds.isEmpty
    · rw [if_pos hds]
      exact List.Pairwise.nil
    · rw [if_neg hds]
      by_cases hm2 : maxQuestions ds < 2
      · rw [if_pos hm2]
        exact List.Pairwise.nil
      · rw [if_neg hm2]
        have hp := insSort_pairwise (fun a b : PerformerEntry => decide (a.variance ≤ b.variance))
          (fun a b => by rcases le_total a.variance b.variance with h | h <;> simp [h])
          (fun a b c hab hbc => by
            simp only [decide_eq_true_eq] at hab hbc ⊢
            exact le_trans hab hbc)
          (ds.filterMap (considerConsistent ds))
        refine hp.imp ?_
        intro a b hab
        simp only [decide_eq_true_eq] at hab
        exact Real.sqrt_le_sqrt (Rat.cast_le.mpr hab)
  · have hqp : questionPercentages dsConsistent recConsistent = [60, 62, 58] := by
      norm_num [questionPercentages, dsConsistent, recConsistent, maxQuestions, mkQuestion,
        questionPct, List.range', List.filterMap]
    have hmean : popMean [60, 62, 58] = (60 : ℚ) := by norm_num [popMean]
    have hvar : popVar [60, 62, 58] = 8 / 3 := by norm_num [popVar, popMean]
    have hcc : considerConsistent dsConsistent recConsistent = some entryConsistent := by
      simp only [considerConsistent, hqp, hmean, hvar]
      rw [if_pos (by norm_num), if_pos (by constructor <;> norm_num)]
      show some ⟨recConsistent.filename, 60, 8 / 3, [60, 62, 58]⟩ = some entryConsistent
      norm_num [recConsistent, entryConsistent]
    have hfm : dsConsistent.filterMap (considerConsistent dsConsistent) = [entryConsistent] := by
      have hstep : dsConsistent.filterMap (considerConsistent dsConsistent) =
          List.filterMap (considerConsistent dsConsistent) [recConsistent] := rfl
      rw [hstep, List.filterMap_cons, hcc]
      rfl
    refine ⟨?_, rfl, ?_, ?_⟩
    · unfold getConsistentPerformers
      rw [if_neg (by decide), if_neg (by decide), hfm]
      rfl
    · rw [show entryConsistent.variance = (8 : ℚ) / 3 from rfl]
      exact (sqrt_cast_lt_15 _).mpr (by norm_num)
    · norm_num [entryConsistent]

/-- Witness for the amended C1 clamp law at a concrete over-limit payload:
a reported 150 against total_marks 100 is clamped to min 150 100 = 100. -/
theorem clamp_only_from_above_witness :
    resultOver.total_score = min (150 : ℚ) 100 ∧ resultOver.total_score ≤ 100 := by
  have h := clamp_only_from_above.1 fieldsOver 100 150 resultOver rfl rfl
  exact ⟨h.1, h.2.1⟩

/-- Witness for C2 at total_marks = 10. -/
theorem repair_recovers_truncated_payload_witness :
    (parseGradingResponse truncPayload 10).total_score = 5 :=
  (repair_recovers_truncated_payload 10 (by decide)).2.2.2

/-- Witness for the amended C3 at the non-gap percentage 95, which hits
exactly one bucket. -/
theorem grade_distribution_spec_witness : bucketHits 95 = 1 := by
  have h := grade_distribution_spec.1 95 (by decide) (by decide)
  rwa [if_neg (by decide)] at h

/-- Witness for C4 on a record whose two question dicts both lack the
attempted key. -/
theorem attempted_requires_explicit_flag_witness :
    rowAttempted recNoAttemptKey 1 = false ∧ rowAttempted recNoAttemptKey 2 = false :=
  ⟨attempted_requires_explicit_flag.2.1 recNoAttemptKey 1 (by decide),
   attempted_requires_explicit_flag.2.1 recNoAttemptKey 2 (by decide)⟩

/-- Witness for C6: "score 3/5" with total_marks 10 is rescaled and
clamped with the raw text kept as feedback, and the matchless "hello"
yields the score-0 record with "hello" preserved verbatim. -/
theorem fallback_rescale_and_raw_feedback_witness :
    (fallbackTextParsing "score 3/5" 10).total_score =
      min (((3 : ℕ) : ℚ) / ((5 : ℕ) : ℚ) * 10) 10 ∧
    (fallbackTextParsing "score 3/5" 10).feedback = "score 3/5" ∧
    (fallbackTextParsing "hello" 10).total_score = 0 ∧
    (fallbackTextParsing "hello" 10).feedback = "hello" := by
  have h1 := fallback_rescale_and_raw_feedback.1 "score 3/5" 10 3 5 (by decide) (by decide)
    (by decide) (by decide)
  have h2 := fallback_rescale_and_raw_feedback.2 "hello" 10 (by decide)
  exact ⟨h1.1, h1.2.2.2, h2.1, h2.2⟩

/-- Witness for C7 on a two-question dataset where both questions tie. -/
theorem most_attempted_skipped_first_max_witness :
    1 ≤ (getMostAttemptedQuestion dsTie).question_number ∧
    (getMostAttemptedQuestion dsTie).question_number ≤ maxQuestions dsTie ∧
    1 ≤ (getMostSkippedQuestion dsTie).question_number := by
  have h := most_attempted_skipped_first_max dsTie (by decide) (by decide)
  exact ⟨h.1.1, h.1.2.1, h.2.1⟩

/-- Witness for C8's entry-contents law at the [60, 62, 58] record. -/
theorem consistent_performers_spec_witness :
    entryConsistent.filename = recConsistent.filename ∧
    entryConsistent.variance = popVar (questionPercentages dsConsistent recConsistent) := by
  have hqp : questionPercentages dsConsistent recConsistent = [60, 62, 58] := by
    norm_num [questionPercentages, dsConsistent, recConsistent, maxQuestions, mkQuestion,
      questionPct, List.range', List.filterMap]
  have hcc : considerConsistent dsConsistent recConsistent = some entryConsistent := by
    simp only [considerConsistent, hqp]
    rw [if_pos (by norm_num), if_pos (by constructor <;> norm_num [popVar, popMean])]
    show some ⟨recConsistent.filename, popMean [60, 62, 58], popVar [60, 62, 58],
      [60, 62, 58]⟩ = some entryConsistent
    norm_num [recConsistent, entryConsistent, popVar, popMean]
  have h := consistent_performers_spec.2.1 dsConsistent recConsistent entryConsistent hcc
  exact ⟨h.1, h.2.2.1⟩

/-- Witness for C9: score 3 of 10 gets its percentage recomputed; score 0
keeps the reported percentage value. -/
theorem percentage_recompute_rule_witness :
    resultPct.percentage = Json.num (resultPct.total_score / 10 * 100) ∧
    resultZero.percentage = (dictGet fieldsZero "percentage").getD (Json.num 0) := by
  have h1 := (percentage_recompute_rule fieldsPct 10 resultPct rfl).1 (by decide)
  have h2 := (percentage_recompute_rule fieldsZero 10 resultZero rfl).2 (by decide)
  exact ⟨h1, h2⟩

/-- Witness for C10 at "score: 5/0" with total_marks 10. -/
theorem fallback_zero_denominator_caught_witness :
    fallbackTextParsing "score: 5/0" 10 =
      createErrorResult "Failed to parse grading response" ∧
    (fallbackTextParsing "score: 5/0" 10).feedback =
      "Error during grading: Failed to parse grading response" ∧
    (fallbackTextParsing "score: 5/0" 10).feedback ≠ "score: 5/0" := by
  have h := fallback_zero_denominator_caught.1 "score: 5/0" 10 5 (by decide) (by decide)
  exact ⟨h.2.1, h.2.2.2.1, h.2.2.2.2 (by decide)⟩
